import Mathlib

/-!
Verification of the youtube-lens content script's filter-matching and DOM
reconciliation engine: a shallow embedding of the URL normalizer, card
classifier, filter state store, filter pass and tag-button injection pass,
with theorems checking the specified behaviour.
-/

namespace YoutubeLens

/-! ### ASCII lowercasing

Models the effect of JavaScript `String.prototype.toLowerCase` on the
ASCII range (the only characters exercised by the URL-normalization
claims; non-ASCII lowercasing is outside the model). -/

def upperLowerTable : List (Char × Char) :=
  [('A', 'a'), ('B', 'b'), ('C', 'c'), ('D', 'd'), ('E', 'e'), ('F', 'f'),
   ('G', 'g'), ('H', 'h'), ('I', 'i'), ('J', 'j'), ('K', 'k'), ('L', 'l'),
   ('M', 'm'), ('N', 'n'), ('O', 'o'), ('P', 'p'), ('Q', 'q'), ('R', 'r'),
   ('S', 's'), ('T', 't'), ('U', 'u'), ('V', 'v'), ('W', 'w'), ('X', 'x'),
   ('Y', 'y'), ('Z', 'z')]

def lowerChar (c : Char) : Char :=
  match upperLowerTable.find? (fun p => p.1 = c) with
  | some p => p.2
  | none => c

def lowercaseLetters : List Char :=
  ['a', 'b', 'c', 'd', 'e', 'f', 'g', 'h', 'i', 'j', 'k', 'l', 'm',
   'n', 'o', 'p', 'q', 'r', 's', 't', 'u', 'v', 'w', 'x', 'y', 'z']

theorem lowerChar_eq_or_lower (c : Char) :
    lowerChar c = c ∨ lowerChar c ∈ lowercaseLetters := by
  unfold lowerChar
  cases h : upperLowerTable.find? (fun p => p.1 = c) with
  | none => left; rfl
  | some p =>
    right
    have hmem := List.mem_of_find?_eq_some h
    have hall : ∀ q ∈ upperLowerTable, q.2 ∈ lowercaseLetters := by decide
    exact hall p hmem

theorem lowerChar_of_lower {c : Char} (h : c ∈ lowercaseLetters) :
    lowerChar c = c := by
  have hall : ∀ x ∈ lowercaseLetters, lowerChar x = x := by decide
  exact hall c h

theorem lowerChar_idem (c : Char) : lowerChar (lowerChar c) = lowerChar c := by
  rcases lowerChar_eq_or_lower c with h | h
  · rw [h, h]
  · exact lowerChar_of_lower h

theorem lowerChar_ne_special {c d : Char}
    (hd : d ∈ (['/', '?', '#'] : List Char)) (hne : c ≠ d) :
    lowerChar c ≠ d := by
  rcases lowerChar_eq_or_lower c with h | h
  · rw [h]; exact hne
  · intro heq
    have hnot : ∀ x ∈ lowercaseLetters, x ∉ (['/', '?', '#'] : List Char) := by
      decide
    exact hnot _ h (heq ▸ hd)

/-! ### URL parsing

Models the WHATWG `new URL` constructor restricted to absolute
`scheme://authority/path?query#fragment` URLs (source: `new URL(url)` in
`normalizeChannelUrl`).  Percent-encoding, dot-segment resolution and
scheme-specific non-hierarchical forms are outside the model; a string the
model rejects corresponds to a constructor that throws. -/

structure URLParts where
  scheme : List Char
  host : List Char
  pathname : List Char
  search : List Char
  fragment : List Char
deriving DecidableEq

def isSchemeChar (c : Char) : Bool :=
  c.isAlpha || c.isDigit || c = '+' || c = '-' || c = '.'

def isAuthorityStop (c : Char) : Bool :=
  c = '/' || c = '?' || c = '#'

def isPathStop (c : Char) : Bool :=
  c = '?' || c = '#'

/-- Split off the characters before the first `:`; `none` when there is no `:`. -/
def takeUntilColon : List Char → Option (List Char × List Char)
  | [] => none
  | c :: cs =>
    if c = ':' then some ([], cs)
    else (takeUntilColon cs).map (fun p => (c :: p.1, p.2))

/-- Split at the first of `/`, `?`, `#` (the end of the authority component). -/
def splitAuthority : List Char → List Char × List Char
  | [] => ([], [])
  | c :: cs =>
    if isAuthorityStop c then ([], c :: cs)
    else
      let p := splitAuthority cs
      (c :: p.1, p.2)

/-- Split at the first of `?`, `#` (the end of the path component). -/
def splitPath : List Char → List Char × List Char
  | [] => ([], [])
  | c :: cs =>
    if isPathStop c then ([], c :: cs)
    else
      let p := splitPath cs
      (c :: p.1, p.2)

/-- Split at the first `#` (the end of the query component). -/
def splitQuery : List Char → List Char × List Char
  | [] => ([], [])
  | c :: cs =>
    if c = '#' then ([], c :: cs)
    else
      let p := splitQuery cs
      (c :: p.1, p.2)

def parseURL (s : List Char) : Option URLParts :=
  match takeUntilColon s with
  | none => none
  | some (schemeCs, rest) =>
    if schemeCs = [] then none
    else if ¬ (schemeCs.headD 'x').isAlpha then none
    else if ¬ schemeCs.all isSchemeChar then none
    else
      match rest with
      | c1 :: c2 :: rest2 =>
        if c1 = '/' ∧ c2 = '/' then
          let a := splitAuthority rest2
          if a.1 = [] then none
          else
            let pq := splitPath a.2
            let qf := match pq.2 with
              | '?' :: t => splitQuery t
              | other => ([], other)
            let frag := match qf.2 with
              | '#' :: t => t
              | _ => []
            some
              { scheme := schemeCs
                host := a.1
                pathname := if pq.1 = [] then ['/'] else pq.1
                search := qf.1
                fragment := frag }
        else none
      | _ => none

/-! ### URL normalization (source: `normalizeChannelUrl` in `src/lib/utils.ts`)

```
export function normalizeChannelUrl(url: string): string {
  try {
    const u = new URL(url)
    const path = u.pathname.replace(/\/$/, "") || "/"
    return `https://www.youtube.com${path}`.toLowerCase()
  } catch {
    return url
  }
}
```
-/

/-- Models `s.replace(/\/$/, "")`: drop a single trailing slash if present. -/
def stripTrailingSlash (l : List Char) : List Char :=
  if l.getLast? = some '/' then l.dropLast else l

def originChars : List Char := "https://www.youtube.com".data

def normalizeChannelUrl (url : String) : String :=
  match parseURL url.data with
  | some u =>
    let path := stripTrailingSlash u.pathname
    let path := if path = [] then ['/'] else path
    String.mk ((originChars ++ path).map lowerChar)
  | none => url

/-! ### Filter state (source: module-level state in the content script)

```
let activeFilterTags: string[] = []
let channelTagMap: Record<string, string[]> = {}
let contentTypeFilters: ContentTypeFilterMap = { ...DEFAULT_CONTENT_TYPES }
```
A `Record<string, string[]>` is modelled as an association list in insertion
order (JavaScript object keys are unique and enumerate in insertion order;
`Object.entries` yields that order).  Property access `m[k]` is first-match
lookup returning `undefined` (`none`) for a missing key. -/

structure ContentTypeFilterMap where
  shorts : Bool
  videos : Bool
  live : Bool
  upcoming : Bool
deriving DecidableEq

def DEFAULT_CONTENT_TYPES : ContentTypeFilterMap :=
  { shorts := true, videos := true, live := true, upcoming := true }

structure FilterState where
  activeFilterTags : List String
  channelTagMap : List (String × List String)
  contentTypeFilters : ContentTypeFilterMap
deriving DecidableEq

def recordGet (m : List (String × List String)) (k : String) :
    Option (List String) :=
  (m.find? (fun kv => kv.1 = k)).map (fun kv => kv.2)

/-- The lookup chain used identically by `getTagCountForChannel` and
`matchesTagFilter`:
```
channelTagMap[normalized] ?? channelTagMap[channelUrl] ??
  Object.entries(channelTagMap).find(([k]) => normalizeChannelUrl(k) === normalized)?.[1] ?? []
```
-/
def assignedTags (m : List (String × List String)) (channelUrl : String) :
    List String :=
  let normalized := normalizeChannelUrl channelUrl
  (((recordGet m normalized).orElse
      (fun _ => recordGet m channelUrl)).orElse
      (fun _ =>
        (m.find? (fun kv => normalizeChannelUrl kv.1 = normalized)).map
          (fun kv => kv.2))).getD []

/-- Source: `matchesTagFilter`.  `!channelUrl` in JavaScript is true both for
`null` (attribute absent, the `none` case) and for the empty string. -/
def matchesTagFilter (st : FilterState) (channelUrl : Option String) : Bool :=
  if st.activeFilterTags.isEmpty then true
  else
    match channelUrl with
    | none => false
    | some url =>
      if url = "" then false
      else
        (assignedTags st.channelTagMap url).any
          (fun tagId => st.activeFilterTags.contains tagId)

/-! ### DOM card model and content-type classification

A card subtree element carries, abstractly, which of the five fixed CSS
selectors used by `getContentType` it matches; its light-DOM children; and an
optional shadow root (`none` models an element without `shadowRoot`).  This
is the shallow embedding of the DOM fragment that `queryInCard` traverses. -/

structure ElemData where
  shortsLink : Bool
  shortsOverlay : Bool
  liveOverlay : Bool
  liveBadge : Bool
  upcomingOverlay : Bool
deriving DecidableEq

inductive Elem where
  | mk (data : ElemData) (children : List Elem) (shadow : Option (List Elem))

def Elem.data : Elem → ElemData
  | .mk d _ _ => d

def Elem.children : Elem → List Elem
  | .mk _ cs _ => cs

/-- Self-including light-DOM closure of a list of elements: models
`root.querySelectorAll("*")` plus matching against `root` itself filtered
out by the callers' shape (`querySelector` never matches the root). -/
def anyLight (p : ElemData → Bool) : List Elem → Bool
  | [] => false
  | .mk d cs _ :: rest => p d || anyLight p cs || anyLight p rest

/-- The recursive shadow-root walk of `queryInCard`: for every light-DOM
descendant owning a shadow root, search that shadow tree and recurse into
shadow roots found beneath it. -/
def walkShadows (p : ElemData → Bool) : List Elem → Bool
  | [] => false
  | .mk _ cs (some ss) :: rest =>
    anyLight p ss || walkShadows p ss || walkShadows p cs || walkShadows p rest
  | .mk _ cs none :: rest => walkShadows p cs || walkShadows p rest

/-- Source: `queryInCard(card, selector)`, reduced to whether a matching
element is found (`getContentType` only tests the result for `null`). -/
def queryInCard (p : ElemData → Bool) : Elem → Bool
  | .mk _ cs _ => anyLight p cs || walkShadows p cs

/-- Spec-side description of the search space of `queryInCard`: every
element reachable from the card's light-DOM children by following
child edges and shadow-root edges (the card's nested shadow subtrees). -/
def subElems : List Elem → List Elem
  | [] => []
  | .mk d cs (some ss) :: rest =>
    .mk d cs (some ss) :: (subElems cs ++ subElems ss ++ subElems rest)
  | .mk d cs none :: rest => .mk d cs none :: (subElems cs ++ subElems rest)

/-- The card, including its nested shadow subtrees, contains an element
matching `p`. -/
def containsMatch (card : Elem) (p : ElemData → Bool) : Prop :=
  ∃ e ∈ subElems card.children, p e.data = true

/-- Source union type `"shorts" | "video" | "live" | "upcoming"`. -/
inductive ContentType where
  | shorts
  | video
  | live
  | upcoming
deriving DecidableEq

/-- Source: `getContentType(card)`. -/
def getContentType (card : Elem) : ContentType :=
  if queryInCard (fun d => d.shortsLink) card
      || queryInCard (fun d => d.shortsOverlay) card then
    .shorts
  else if queryInCard (fun d => d.liveOverlay) card
      || queryInCard (fun d => d.liveBadge) card then
    .live
  else if queryInCard (fun d => d.upcomingOverlay) card then
    .upcoming
  else
    .video

/-- Source: `const filterKey = type === "video" ? "videos" : type`. -/
inductive FilterKey where
  | shorts
  | videos
  | live
  | upcoming
deriving DecidableEq

def mappedKey : ContentType → FilterKey
  | .video => .videos
  | .shorts => .shorts
  | .live => .live
  | .upcoming => .upcoming

def lookupToggle (f : ContentTypeFilterMap) : FilterKey → Bool
  | .shorts => f.shorts
  | .videos => f.videos
  | .live => f.live
  | .upcoming => f.upcoming

/-- Source: `matchesContentTypeFilter(card)` —
`contentTypeFilters[filterKey] === true`. -/
def matchesContentTypeFilter (f : ContentTypeFilterMap) (card : Elem) : Bool :=
  lookupToggle f (mappedKey (getContentType card))

/-! ### The filter pass (source: `applyFilter`) -/

/-- One feed card as seen by `applyFilter`: its subtree (for
classification), its `data-ytx-channel-url` attribute, and its
`style.display`. -/
structure PageCard where
  tree : Elem
  channelUrlAttr : Option String
  display : String

structure ShelfState where
  hasShortsContent : Bool
  display : String
deriving DecidableEq

/-- The whole mutable page surface that `applyFilter` reads and writes.
`warning` is the display value of the attached empty-state notice
(`none` = no such element in the document); `warningContainerExists`
records whether one of the containers the notice is prepended into exists. -/
structure PageState where
  isSubscriptionsFeed : Bool
  warning : Option String
  warningContainerExists : Bool
  continuations : List String
  cards : List PageCard
  shortsShelves : List ShelfState
  tagButtonDisplays : List String

def allContentDisabled (f : ContentTypeFilterMap) : Bool :=
  !f.shorts && !f.videos && !f.live && !f.upcoming

/-- The per-card body of `applyFilter`'s `cards.forEach`:
`show = matchesTagFilter(channelUrl) && matchesContentTypeFilter(card)`;
`card.style.display = show ? "" : "none"`. -/
def filterCard (st : FilterState) (c : PageCard) : PageCard :=
  { c with
    display :=
      if matchesTagFilter st c.channelUrlAttr
          && matchesContentTypeFilter st.contentTypeFilters c.tree then
        ""
      else
        "none" }

/-- Source: `applyFilter()`.  When all content types are disabled and no
warning element is attached yet, the element is created and prepended only
if a container is found; a detached element is invisible to the next
`getElementById`, hence the `warningContainerExists` guard. -/
def applyFilter (st : FilterState) (pg : PageState) : PageState :=
  if !pg.isSubscriptionsFeed then pg
  else
    let disabled := allContentDisabled st.contentTypeFilters
    { pg with
      warning :=
        if disabled then
          match pg.warning with
          | some _ => some ("flex")
          | none => if pg.warningContainerExists then some ("flex") else none
        else
          match pg.warning with
          | some _ => some ("none")
          | none => none
      continuations :=
        pg.continuations.map (fun _ => if disabled then "none" else "")
      cards := pg.cards.map (filterCard st)
      shortsShelves :=
        pg.shortsShelves.map (fun sh =>
          if sh.hasShortsContent then
            { sh with
              display := if st.contentTypeFilters.shorts then "" else "none" }
          else sh)
      tagButtonDisplays :=
        pg.tagButtonDisplays.map
          (fun _ => if st.activeFilterTags.length > 0 then "none" else "") }

/-! ### Tag-button injection (source: `addTagButtonToCard` and the tag-button
factory in the content script; presentation-only effects — inline styles,
hover handlers — are not part of the model) -/

/-- The channel link resolved by `findChannelLink`: the anchor's `href` and
its trimmed `textContent` (`none` models a null `textContent`). -/
structure Link where
  href : String
  text : Option String
deriving DecidableEq

/-- An injected control: its `data-channel-url` attribute, its label text,
and the `(channelUrl, channelName)` payload captured by its click listener. -/
structure TagButton where
  dataChannelUrl : String
  label : String
  clickUrl : String
  clickName : String
deriving DecidableEq

/-- A feed card as seen by the injection pass: its
`data-ytx-channel-url` attribute, whether `data-ytx-tag-btn === "1"`,
and the injected buttons found under it in document order. -/
structure CardState where
  channelUrlAttr : Option String
  marked : Bool
  buttons : List TagButton
deriving DecidableEq

/-- Models `x?.trim() || "Channel"` (the stored text is already trimmed;
null and the empty string both fall back). -/
def textOrChannel (t : Option String) : String :=
  match t with
  | some s => if s = "" then "Channel" else s
  | none => "Channel"

/-- Source: `getTagCountForChannel`. -/
def getTagCountForChannel (m : List (String × List String))
    (channelUrl : String) : Nat :=
  (assignedTags m channelUrl).length

/-- Source: `getTagButtonLabel`. -/
def getTagButtonLabel (m : List (String × List String))
    (channelUrl : String) : String :=
  let count := getTagCountForChannel m channelUrl
  if count > 0 then toString count ++ " Tag" else "Tag"

/-- Source: `createTagButton` (card variant). -/
def createTagButton (m : List (String × List String))
    (channelUrl channelName : String) : TagButton :=
  { dataChannelUrl := channelUrl
    label := getTagButtonLabel m channelUrl
    clickUrl := channelUrl
    clickName := channelName }

/-- Source: `addTagButtonToCard(card)`.  Note the source mutates the
annotation attribute (`card.setAttribute(CHANNEL_URL_MARK, link.href)`)
before reading it back into `currentUrl`, so the early-return guard compares
the fresh link against itself. -/
def addTagButtonToCard (m : List (String × List String)) (link : Option Link)
    (c : CardState) : CardState :=
  match link with
  | none => c
  | some l =>
    let c1 : CardState := { c with channelUrlAttr := some l.href }
    let existing := c1.buttons.head?
    let currentUrl := c1.channelUrlAttr
    if c1.marked ∧ existing.isSome ∧ currentUrl = some l.href then c1
    else
      let afterRemove := if existing.isSome then c1.buttons.tail else c1.buttons
      let channelName := textOrChannel l.text
      let btn := createTagButton m l.href channelName
      { c1 with buttons := afterRemove ++ [btn], marked := true }

/-! ### Filter-change event handling (source: `attachFilterListener`) -/

/-- The `contentTypes` member of a filter-change event, field-wise optional
(the event may carry a partial object). -/
structure PartialContentTypes where
  shorts : Option Bool
  videos : Option Bool
  live : Option Bool
  upcoming : Option Bool
deriving DecidableEq

/-- A filter-change event's `detail` members, each possibly absent. -/
structure FilterChangeDetail where
  activeTags : Option (List String)
  channelTags : Option (List (String × List String))
  contentTypes : Option PartialContentTypes
deriving DecidableEq

/-- Models the spread `{ ...DEFAULT_CONTENT_TYPES, ...detail.contentTypes }`:
fields present in the event override the all-true defaults. -/
def mergeContentTypes (ct : PartialContentTypes) : ContentTypeFilterMap :=
  { shorts := ct.shorts.getD DEFAULT_CONTENT_TYPES.shorts
    videos := ct.videos.getD DEFAULT_CONTENT_TYPES.videos
    live := ct.live.getD DEFAULT_CONTENT_TYPES.live
    upcoming := ct.upcoming.getD DEFAULT_CONTENT_TYPES.upcoming }

/-- Source: the `ytx-filter-change` handler body (state update only; the
subsequent `updateTagButtonLabels()` / `applyFilter()` calls read the
state this function produces).  `detail = none` models an event whose
`detail` is nullish: `if (!detail) return`. -/
def handleFilterChange (st : FilterState) (detail : Option FilterChangeDetail) :
    FilterState :=
  match detail with
  | none => st
  | some d =>
    { activeFilterTags := d.activeTags.getD []
      channelTagMap := d.channelTags.getD []
      contentTypeFilters :=
        match d.contentTypes with
        | some ct => mergeContentTypes ct
        | none => st.contentTypeFilters }

/-! ### Concrete fixtures used by witnesses -/

def plainData : ElemData :=
  { shortsLink := false, shortsOverlay := false, liveOverlay := false,
    liveBadge := false, upcomingOverlay := false }

/-- A card subtree with none of the classifier's markers: a plain video. -/
def videoElem : Elem := .mk plainData [] none

/-- A card subtree containing both a shorts link and a live badge on a
nested element: classified as shorts by priority. -/
def shortsLiveElem : Elem :=
  .mk plainData
    [.mk { plainData with shortsLink := true, liveBadge := true } [] none]
    none

/-- The spec's filter-correctness scenario: `activeFilterTags = ["racing"]`,
`@foo` assigned `["racing"]`, shorts toggled off, videos on. -/
def racingState : FilterState :=
  { activeFilterTags := ["racing"]
    channelTagMap := [("https://www.youtube.com/@foo", ["racing"])]
    contentTypeFilters :=
      { shorts := false, videos := true, live := true, upcoming := true } }

def fooCard : PageCard :=
  { tree := videoElem
    channelUrlAttr := some ("https://www.youtube.com/@foo")
    display := "" }

def barCard : PageCard :=
  { tree := videoElem
    channelUrlAttr := some ("https://www.youtube.com/@bar")
    display := "" }

def fooShortCard : PageCard :=
  { tree := shortsLiveElem
    channelUrlAttr := some ("https://www.youtube.com/@foo")
    display := "" }

def allOffState : FilterState :=
  { activeFilterTags := []
    channelTagMap := []
    contentTypeFilters :=
      { shorts := false, videos := false, live := false, upcoming := false } }

def examplePage : PageState :=
  { isSubscriptionsFeed := true
    warning := none
    warningContainerExists := true
    continuations := ["", ""]
    cards := [fooCard, barCard]
    shortsShelves := [{ hasShortsContent := true, display := "" }]
    tagButtonDisplays := [""] }

/-! ## Helper lemmas about the URL parser -/

theorem takeUntilColon_append {a : List Char} (t : List Char)
    (ha : ∀ c ∈ a, c ≠ ':') :
    takeUntilColon (a ++ ':' :: t) = some (a, t) := by
  induction a with
  | nil => simp [takeUntilColon]
  | cons x xs ih =>
    have hx : x ≠ ':' := ha x (by simp)
    simp [takeUntilColon, hx, ih (fun c hc => ha c (by simp [hc]))]

theorem splitAuthority_append {a : List Char} {b : Char} (t : List Char)
    (ha : ∀ c ∈ a, isAuthorityStop c = false) (hb : isAuthorityStop b = true) :
    splitAuthority (a ++ b :: t) = (a, b :: t) := by
  induction a with
  | nil => simp [splitAuthority, hb]
  | cons x xs ih =>
    have hx := ha x (by simp)
    simp [splitAuthority, hx, ih (fun c hc => ha c (by simp [hc]))]

theorem splitPath_no_stop {l : List Char} (hl : ∀ c ∈ l, isPathStop c = false) :
    splitPath l = (l, []) := by
  induction l with
  | nil => simp [splitPath]
  | cons x xs ih =>
    have hx := hl x (by simp)
    simp [splitPath, hx, ih (fun c hc => hl c (by simp [hc]))]

theorem splitPath_fst_no_stop (l : List Char) :
    ∀ c ∈ (splitPath l).1, isPathStop c = false := by
  induction l with
  | nil => intro c hc; simp [splitPath] at hc
  | cons x xs ih =>
    intro c hc
    by_cases hx : isPathStop x
    · simp [splitPath, hx] at hc
    · simp [splitPath, hx] at hc
      rcases hc with rfl | hc
      · simpa using hx
      · exact ih c hc

theorem splitAuthority_snd (l : List Char) :
    (splitAuthority l).2 = [] ∨
      ∃ c t, (splitAuthority l).2 = c :: t ∧ isAuthorityStop c = true := by
  induction l with
  | nil => left; rfl
  | cons x xs ih =>
    by_cases hx : isAuthorityStop x
    · right; exact ⟨x, xs, by simp [splitAuthority, hx], hx⟩
    · simpa [splitAuthority, hx] using ih

/-- Every successfully parsed URL has a pathname that starts with a slash
and contains neither a query nor a fragment delimiter. -/
theorem parseURL_pathname_facts {s : List Char} {p : URLParts}
    (h : parseURL s = some p) :
    p.pathname.head? = some '/' ∧ ∀ c ∈ p.pathname, isPathStop c = false := by
  unfold parseURL at h
  rcases htc : takeUntilColon s with _ | ⟨schemeCs, rest⟩ <;> rw [htc] at h
  · simp at h
  · dsimp only at h
    split_ifs at h with h1 h2 h3
    rcases rest with _ | ⟨c1, _ | ⟨c2, rest2⟩⟩
    · simp at h
    · simp at h
    · dsimp only at h
      split_ifs at h with h4 h5 h6
      · rw [Option.some_inj] at h
        subst h
        refine ⟨rfl, ?_⟩
        intro c hc
        simp at hc
        subst hc
        decide
      · rw [Option.some_inj] at h
        subst h
        refine ⟨?_, splitPath_fst_no_stop _⟩
        rcases splitAuthority_snd rest2 with hsnd | ⟨c, t, hsnd, hstop⟩
        · rw [hsnd] at h6
          simp [splitPath] at h6
        · rw [hsnd] at h6 ⊢
          by_cases hps : isPathStop c
          · simp [splitPath, hps] at h6
          · have hc : c = '/' := by
              revert hstop hps
              simp [isAuthorityStop, isPathStop]
              tauto
            subst hc
            simp [splitPath, isPathStop]

/-- Re-parsing a string of the shape `https://www.youtube.com` + path
recovers exactly that path. -/
theorem parseURL_origin_append {r : List Char} (hh : r.head? = some '/')
    (hr : ∀ c ∈ r, isPathStop c = false) :
    parseURL (originChars ++ r) =
      some { scheme := ['h', 't', 't', 'p', 's']
             host := ['w', 'w', 'w', '.', 'y', 'o', 'u', 't', 'u', 'b', 'e',
                      '.', 'c', 'o', 'm']
             pathname := r
             search := []
             fragment := [] } := by
  rcases r with _ | ⟨c0, r0⟩
  · simp at hh
  · have hc0 : c0 = '/' := by simpa using hh
    subst hc0
    have hsplit : originChars ++ '/' :: r0 =
        ['h', 't', 't', 'p', 's'] ++ ':' ::
          ('/' :: '/' ::
            (['w', 'w', 'w', '.', 'y', 'o', 'u', 't', 'u', 'b', 'e',
              '.', 'c', 'o', 'm'] ++ '/' :: r0)) := by
      rfl
    have h1 := takeUntilColon_append
      (a := ['h', 't', 't', 'p', 's'])
      ('/' :: '/' ::
        (['w', 'w', 'w', '.', 'y', 'o', 'u', 't', 'u', 'b', 'e',
          '.', 'c', 'o', 'm'] ++ '/' :: r0))
      (by decide)
    have h2 := splitAuthority_append
      (a := ['w', 'w', 'w', '.', 'y', 'o', 'u', 't', 'u', 'b', 'e',
             '.', 'c', 'o', 'm'])
      (b := '/') r0 (by decide) (by decide)
    have h3 : splitPath ('/' :: r0) = ('/' :: r0, []) := splitPath_no_stop hr
    have hAl : ((['h', 't', 't', 'p', 's'] : List Char).headD 'x').isAlpha
        = true := by decide
    have hAll : (['h', 't', 't', 'p', 's'] : List Char).all isSchemeChar
        = true := by decide
    simp only [List.cons_append, List.nil_append] at h1 h2
    rw [hsplit]
    simp [parseURL, h1, h2, h3, hAl, hAll]

/-! ## Helper lemmas about lowercasing and slash stripping -/

theorem lowerChar_map_idem (l : List Char) :
    (l.map lowerChar).map lowerChar = l.map lowerChar := by
  rw [List.map_map]
  exact List.map_congr_left (fun c _ => lowerChar_idem c)

theorem lowerChar_no_stop {l : List Char}
    (hl : ∀ c ∈ l, isPathStop c = false) :
    ∀ c ∈ l.map lowerChar, isPathStop c = false := by
  intro c hc
  rcases List.mem_map.mp hc with ⟨x, hx, rfl⟩
  have hx2 := hl x hx
  simp only [isPathStop, Bool.or_eq_false_iff, decide_eq_false_iff_not] at hx2 ⊢
  exact ⟨lowerChar_ne_special (by decide) hx2.1,
         lowerChar_ne_special (by decide) hx2.2⟩

theorem stripTrailingSlash_map_lower (l : List Char) :
    stripTrailingSlash (l.map lowerChar) =
      (stripTrailingSlash l).map lowerChar := by
  unfold stripTrailingSlash
  rw [List.getLast?_map]
  by_cases h : l.getLast? = some '/'
  · have hmap : l.getLast?.map lowerChar = some '/' := by
      rw [h]
      have hsl : lowerChar '/' = '/' := by decide
      simp [hsl]
    rw [if_pos hmap, if_pos h, List.map_dropLast]
  · have hmap : ¬ l.getLast?.map lowerChar = some '/' := by
      intro hcon
      rcases hx : l.getLast? with _ | x
      · rw [hx] at hcon
        simp at hcon
      · rw [hx] at hcon
        simp at hcon
        have hxne : x ≠ '/' := fun hxe => h (by rw [hx, hxe])
        exact lowerChar_ne_special (by decide) hxne hcon
    rw [if_neg hmap, if_neg h]

/-! ## Unfolding lemmas for the normalizer -/

theorem normalizeChannelUrl_of_parse {url : String} {p : URLParts}
    (h : parseURL url.data = some p) :
    normalizeChannelUrl url =
      String.mk ((originChars ++
        (if stripTrailingSlash p.pathname = [] then ['/']
         else stripTrailingSlash p.pathname)).map lowerChar) := by
  unfold normalizeChannelUrl
  rw [h]

theorem normalizeChannelUrl_of_fail {url : String}
    (h : parseURL url.data = none) : normalizeChannelUrl url = url := by
  unfold normalizeChannelUrl
  rw [h]

theorem originChars_map_lower : originChars.map lowerChar = originChars := by
  decide

/-- The head of a nonempty `dropLast` of a `/`-headed list is still `/`. -/
theorem head?_dropLast_of_ne_nil {l : List Char} {a : Char}
    (hh : l.head? = some a) (hne : l.dropLast ≠ []) :
    l.dropLast.head? = some a := by
  rw [List.head?_dropLast]
  have hlen : 1 < l.length := by
    by_contra hcon
    push_neg at hcon
    apply hne
    have := List.length_dropLast l
    have hz : l.dropLast.length = 0 := by omega
    exact List.eq_nil_of_length_eq_zero hz
  rw [if_pos hlen, hh]

/-- Head and no-stop facts transfer from a parsed pathname to the slash
stripped, slash defaulted path that the normalizer emits. -/
theorem stripped_path_facts {p : URLParts}
    (hhead : p.pathname.head? = some '/')
    (hstop : ∀ c ∈ p.pathname, isPathStop c = false) :
    (if stripTrailingSlash p.pathname = [] then ['/']
     else stripTrailingSlash p.pathname).head? = some '/' ∧
    ∀ c ∈ (if stripTrailingSlash p.pathname = [] then ['/']
           else stripTrailingSlash p.pathname), isPathStop c = false := by
  by_cases hnil : stripTrailingSlash p.pathname = []
  · rw [if_pos hnil]
    exact ⟨rfl, by decide⟩
  · rw [if_neg hnil]
    constructor
    · unfold stripTrailingSlash at hnil ⊢
      by_cases hlast : p.pathname.getLast? = some '/'
      · rw [if_pos hlast] at hnil ⊢
        exact head?_dropLast_of_ne_nil hhead hnil
      · rw [if_neg hlast]
        exact hhead
    · intro c hc
      apply hstop
      unfold stripTrailingSlash at hc
      by_cases hlast : p.pathname.getLast? = some '/'
      · rw [if_pos hlast] at hc
        exact List.dropLast_subset _ hc
      · rw [if_neg hlast] at hc
        exact hc

/-! ## Claim theorems: URL normalization (C7, C8, C9, C10) -/

/-- C7: for every input that parses as a URL, the normalized result is the
fixed origin plus the trailing-slash-stripped path (root path becoming `/`),
all lowercased; and any two parseable URLs whose paths agree up to ASCII
case and the stripped trailing slash (in particular case variants and
trailing-slash variants of the same host and path) normalize to the
identical string.  Purity and determinism are inherent: the normalizer is a
function of the input string alone. -/
theorem c7_normalization_canonical (u1 u2 : String) (p1 p2 : URLParts)
    (h1 : parseURL u1.data = some p1) (h2 : parseURL u2.data = some p2)
    (hvar : stripTrailingSlash (p1.pathname.map lowerChar) =
            stripTrailingSlash (p2.pathname.map lowerChar)) :
    normalizeChannelUrl u1 =
      String.mk ((originChars ++
        (if stripTrailingSlash p1.pathname = [] then ['/']
         else stripTrailingSlash p1.pathname)).map lowerChar) ∧
    normalizeChannelUrl u1 = normalizeChannelUrl u2 := by
  refine ⟨normalizeChannelUrl_of_parse h1, ?_⟩
  rw [normalizeChannelUrl_of_parse h1, normalizeChannelUrl_of_parse h2]
  rw [stripTrailingSlash_map_lower, stripTrailingSlash_map_lower] at hvar
  have hnil : stripTrailingSlash p1.pathname = [] ↔
      stripTrailingSlash p2.pathname = [] := by
    constructor
    · intro hx
      rw [hx] at hvar
      exact List.map_eq_nil_iff.mp hvar.symm
    · intro hx
      rw [hx] at hvar
      exact List.map_eq_nil_iff.mp hvar
  by_cases hx : stripTrailingSlash p1.pathname = []
  · rw [if_pos hx, if_pos (hnil.mp hx)]
  · rw [if_neg hx, if_neg (fun hy => hx (hnil.mpr hy))]
    rw [List.map_append, List.map_append, ← hvar]

/-- C7 witness: the spec's own example pair, a case and trailing-slash
variant of the same path. -/
theorem c7_witness :
    normalizeChannelUrl ("https://X.com/@A/") =
      String.mk ((originChars ++
        (if stripTrailingSlash (String.data ("/@A/")) = [] then ['/']
         else stripTrailingSlash (String.data ("/@A/")))).map lowerChar) ∧
    normalizeChannelUrl ("https://X.com/@A/") =
      normalizeChannelUrl ("https://x.com/@a") :=
  c7_normalization_canonical _ _
    ⟨String.data ("https"), String.data ("X.com"), String.data ("/@A/"),
      [], []⟩
    ⟨String.data ("https"), String.data ("x.com"), String.data ("/@a"),
      [], []⟩
    (by decide) (by decide) (by decide)

/-- C9: whenever URL parsing fails (relative or otherwise malformed URLs),
the normalizer returns its input unchanged.  The normalizer is a total Lean
function, so it is defined (and never throws) on every string. -/
theorem c9_parse_failure_identity (url : String)
    (h : parseURL url.data = none) : normalizeChannelUrl url = url :=
  normalizeChannelUrl_of_fail h

/-- C9 witness: a relative URL fails to parse and is returned unchanged. -/
theorem c9_witness :
    parseURL (String.data ("/relative/@path")) = none ∧
    normalizeChannelUrl ("/relative/@path") = "/relative/@path" :=
  ⟨by decide, c9_parse_failure_identity _ (by decide)⟩

/-- C10: for parseable URLs the normalized key depends only on the pathname;
scheme, host, port, query and fragment are discarded. -/
theorem c10_pathname_only (u1 u2 : String) (p1 p2 : URLParts)
    (h1 : parseURL u1.data = some p1) (h2 : parseURL u2.data = some p2)
    (hpath : p1.pathname = p2.pathname) :
    normalizeChannelUrl u1 = normalizeChannelUrl u2 := by
  rw [normalizeChannelUrl_of_parse h1, normalizeChannelUrl_of_parse h2, hpath]

/-- C10 witness: two URLs differing in scheme, host, port, query and
fragment but with the same path normalize identically. -/
theorem c10_witness :
    normalizeChannelUrl ("http://a.org:8080/@foo?x=1#y") =
      normalizeChannelUrl ("https://b.com/@foo") :=
  c10_pathname_only _ _
    ⟨String.data ("http"), String.data ("a.org:8080"), String.data ("/@foo"),
      String.data ("x=1"), String.data ("y")⟩
    ⟨String.data ("https"), String.data ("b.com"), String.data ("/@foo"),
      [], []⟩
    (by decide) (by decide) (by decide)

/-- C8 counterexample: the claim `normalize(normalize(u)) == normalize(u)`
for all `u` fails at `https://x.com/@a//`: the first pass strips one of the
two trailing slashes, the second pass strips the other. -/
theorem c8_counterexample :
    normalizeChannelUrl (normalizeChannelUrl ("https://x.com/@a//")) ≠
      normalizeChannelUrl ("https://x.com/@a//") := by
  decide

/-- C8 (amended): normalization is idempotent for every input except
parseable URLs whose pathname still ends in a slash after one trailing
slash is removed (i.e. pathnames ending in two or more slashes beyond the
root): on inputs that fail to parse, and on parseable inputs whose
stripped path is empty, the root slash, or does not end in a slash,
`normalize(normalize(u)) = normalize(u)`. -/
theorem c8_amended_idempotent (u : String)
    (hcond : parseURL u.data = none ∨
      ∃ p, parseURL u.data = some p ∧
        (stripTrailingSlash p.pathname = [] ∨
         stripTrailingSlash p.pathname = ['/'] ∨
         (stripTrailingSlash p.pathname).getLast? ≠ some '/')) :
    normalizeChannelUrl (normalizeChannelUrl u) = normalizeChannelUrl u := by
  rcases hcond with hnone | ⟨p, hp, hq⟩
  · rw [normalizeChannelUrl_of_fail hnone, normalizeChannelUrl_of_fail hnone]
  · obtain ⟨hhead, hstop⟩ := parseURL_pathname_facts hp
    obtain ⟨hhead2, hstop2⟩ := stripped_path_facts hhead hstop
    have hout := normalizeChannelUrl_of_parse hp
    set qd := (if stripTrailingSlash p.pathname = [] then ['/']
               else stripTrailingSlash p.pathname) with hqd
    have hdata : (String.mk ((originChars ++ qd).map lowerChar)).data =
        originChars ++ qd.map lowerChar := by
      show (originChars ++ qd).map lowerChar = originChars ++ qd.map lowerChar
      rw [List.map_append, originChars_map_lower]
    have hrhead : (qd.map lowerChar).head? = some '/' := by
      rw [List.head?_map, hhead2]
      decide
    have hrstop := lowerChar_no_stop hstop2
    have hreparse : parseURL (String.mk ((originChars ++ qd).map lowerChar)).data
        = some { scheme := ['h', 't', 't', 'p', 's']
                 host := ['w', 'w', 'w', '.', 'y', 'o', 'u', 't', 'u', 'b',
                          'e', '.', 'c', 'o', 'm']
                 pathname := qd.map lowerChar
                 search := []
                 fragment := [] } := by
      rw [hdata]
      exact parseURL_origin_append hrhead hrstop
    rw [hout, normalizeChannelUrl_of_parse hreparse]
    simp only
    rw [stripTrailingSlash_map_lower]
    by_cases hnil : stripTrailingSlash p.pathname = []
    · have hqd1 : qd = ['/'] := by rw [hqd, if_pos hnil]
      rw [hqd1]
      have : stripTrailingSlash ['/'] = [] := by decide
      rw [this]
      simp only [List.map_nil, reduceIte]
    · have hqd1 : qd = stripTrailingSlash p.pathname := by
        rw [hqd, if_neg hnil]
      rcases hq with hq | hq | hq
      · exact absurd hq hnil
      · rw [hqd1, hq]
        have h1 : stripTrailingSlash ['/'] = [] := by decide
        rw [h1]
        simp only [List.map_nil, reduceIte]
      · have hfix : stripTrailingSlash qd = qd := by
          unfold stripTrailingSlash
          rw [if_neg (by rw [hqd1]; exact hq)]
        rw [hfix]
        have hmapne : ¬ qd.map lowerChar = [] := by
          intro hcon
          have := List.map_eq_nil_iff.mp hcon
          rw [hqd1] at this
          exact hnil this
        rw [if_neg hmapne]
        rw [List.map_append, List.map_append, lowerChar_map_idem]

/-- C8 witness for the amended claim: a parseable URL whose stripped path
does not end in a slash is a fixed point of repeated normalization. -/
theorem c8_witness :
    normalizeChannelUrl (normalizeChannelUrl ("https://X.com/@A/")) =
      normalizeChannelUrl ("https://X.com/@A/") :=
  c8_amended_idempotent _
    (Or.inr ⟨⟨String.data ("https"), String.data ("X.com"),
      String.data ("/@A/"), [], []⟩,
      by decide, Or.inr (Or.inr (by decide))⟩)

/-! ## Claim theorems: content-type classification (C3) -/

/-- The two-phase search of `queryInCard` (light-DOM `querySelector`, then
the shadow-root walk) finds a match exactly when some element of the
combined light-and-shadow descendant closure matches. -/
theorem anyLight_or_walkShadows (p : ElemData → Bool) (L : List Elem) :
    (anyLight p L || walkShadows p L) = (subElems L).any (fun e => p e.data) := by
  induction L using subElems.induct with
  | case1 => simp [anyLight, walkShadows, subElems]
  | case2 d cs ss rest ih1 ih2 ih3 =>
    simp only [anyLight, walkShadows, subElems, List.any_cons, List.any_append]
    rw [← ih1, ← ih2, ← ih3]
    show _ = (p d || _)
    ac_rfl
  | case3 d cs rest ih1 ih2 =>
    simp only [anyLight, walkShadows, subElems, List.any_cons, List.any_append]
    rw [← ih1, ← ih2]
    show _ = (p d || _)
    ac_rfl

theorem queryInCard_iff_containsMatch (p : ElemData → Bool) (card : Elem) :
    queryInCard p card = true ↔ containsMatch card p := by
  rcases card with ⟨d, cs, sh⟩
  show (anyLight p cs || walkShadows p cs) = true ↔ _
  rw [anyLight_or_walkShadows]
  simp [containsMatch, List.any_eq_true, Elem.children]

theorem queryInCard_or_iff (p q : ElemData → Bool) (card : Elem) :
    (queryInCard p card || queryInCard q card) = true ↔
      containsMatch card (fun d => p d || q d) := by
  rcases card with ⟨d, cs, sh⟩
  show ((anyLight p cs || walkShadows p cs) ||
      (anyLight q cs || walkShadows q cs)) = true ↔ _
  rw [anyLight_or_walkShadows, anyLight_or_walkShadows]
  simp only [containsMatch, List.any_eq_true, Elem.children, Bool.or_eq_true]
  constructor
  · rintro (⟨e, he, hp⟩ | ⟨e, he, hq⟩)
    exacts [⟨e, he, Or.inl hp⟩, ⟨e, he, Or.inr hq⟩]
  · rintro ⟨e, he, hp | hq⟩
    exacts [Or.inl ⟨e, he, hp⟩, Or.inr ⟨e, he, hq⟩]

/-- C3: the classifier is a total function into
`{shorts, live, upcoming, video}` evaluated in fixed priority order with
`video` as fallback; a shorts marker anywhere in the card's light or nested
shadow subtrees wins even when a live marker is present, then live, then
upcoming. -/
theorem c3_classifier_priority (card : Elem) :
    (getContentType card = ContentType.shorts ↔
      containsMatch card (fun d => d.shortsLink || d.shortsOverlay)) ∧
    (getContentType card = ContentType.live ↔
      (¬ containsMatch card (fun d => d.shortsLink || d.shortsOverlay) ∧
        containsMatch card (fun d => d.liveOverlay || d.liveBadge))) ∧
    (getContentType card = ContentType.upcoming ↔
      (¬ containsMatch card (fun d => d.shortsLink || d.shortsOverlay) ∧
        ¬ containsMatch card (fun d => d.liveOverlay || d.liveBadge) ∧
        containsMatch card (fun d => d.upcomingOverlay))) ∧
    (getContentType card = ContentType.video ↔
      (¬ containsMatch card (fun d => d.shortsLink || d.shortsOverlay) ∧
        ¬ containsMatch card (fun d => d.liveOverlay || d.liveBadge) ∧
        ¬ containsMatch card (fun d => d.upcomingOverlay))) := by
  have hs := queryInCard_or_iff (fun d => d.shortsLink)
    (fun d => d.shortsOverlay) card
  have hl := queryInCard_or_iff (fun d => d.liveOverlay)
    (fun d => d.liveBadge) card
  have hu := queryInCard_iff_containsMatch (fun d => d.upcomingOverlay) card
  unfold getContentType
  by_cases h1 : (queryInCard (fun d => d.shortsLink) card
      || queryInCard (fun d => d.shortsOverlay) card) = true
  · rw [if_pos h1]
    have hcs := hs.mp h1
    simp [hcs]
  · rw [if_neg h1]
    have hns : ¬ containsMatch card (fun d => d.shortsLink || d.shortsOverlay) :=
      fun hc => h1 (hs.mpr hc)
    by_cases h2 : (queryInCard (fun d => d.liveOverlay) card
        || queryInCard (fun d => d.liveBadge) card) = true
    · rw [if_pos h2]
      have hcl := hl.mp h2
      simp [hns, hcl]
    · rw [if_neg h2]
      have hnl : ¬ containsMatch card (fun d => d.liveOverlay || d.liveBadge) :=
        fun hc => h2 (hl.mpr hc)
      by_cases h3 : queryInCard (fun d => d.upcomingOverlay) card = true
      · rw [if_pos h3]
        have hcu := hu.mp h3
        simp [hns, hnl, hcu]
      · rw [if_neg h3]
        have hnu : ¬ containsMatch card (fun d => d.upcomingOverlay) :=
          fun hc => h3 (hu.mpr hc)
        simp [hns, hnl, hnu]

/-! ## Claim theorems: filter visibility (C1) -/

/-- Characterization of `matchesTagFilter` for annotations the injection
pass can produce (the written annotation is a resolved `href`, never the
empty string). -/
theorem matchesTagFilter_iff (st : FilterState) (cu : Option String)
    (hcu : cu ≠ some ("")) :
    matchesTagFilter st cu = true ↔
      (st.activeFilterTags = [] ∨
        ∃ url, cu = some url ∧
          ∃ t ∈ assignedTags st.channelTagMap url, t ∈ st.activeFilterTags) := by
  unfold matchesTagFilter
  rcases hlist : st.activeFilterTags with _ | ⟨t0, ts⟩
  · simp
  · rcases cu with _ | url
    · simp
    · have hu : url ≠ "" := fun h => hcu (by rw [h])
      simp [hu, List.any_eq_true]

/-- C1: a card processed by the filter pass ends up visible (display
restored to the empty string, as opposed to `none`) iff it tag-matches —
the active tag list is empty, or the card carries a resolved channel-URL
annotation whose assigned tag set (under the normalizing lookup chain)
intersects the active tags — and the content-type toggle selected by the
mapped key of its classified type is on. -/
theorem c1_filter_visibility (st : FilterState) (c : PageCard)
    (hcu : c.channelUrlAttr ≠ some ("")) :
    ((filterCard st c).display = "" ∨ (filterCard st c).display = "none") ∧
    ((filterCard st c).display = "" ↔
      ((st.activeFilterTags = [] ∨
        ∃ url, c.channelUrlAttr = some url ∧
          ∃ t ∈ assignedTags st.channelTagMap url,
            t ∈ st.activeFilterTags) ∧
        lookupToggle st.contentTypeFilters
          (mappedKey (getContentType c.tree)) = true)) := by
  have hm := matchesTagFilter_iff st c.channelUrlAttr hcu
  unfold filterCard
  by_cases hcond : (matchesTagFilter st c.channelUrlAttr
      && matchesContentTypeFilter st.contentTypeFilters c.tree) = true
  · rw [if_pos hcond]
    rw [Bool.and_eq_true] at hcond
    have hct : lookupToggle st.contentTypeFilters
        (mappedKey (getContentType c.tree)) = true := hcond.2
    exact ⟨Or.inl rfl, by simp [hm.mp hcond.1, hct]⟩
  · rw [if_neg hcond]
    refine ⟨Or.inr rfl, ?_, ?_⟩
    · intro hfalse
      simp at hfalse
    · intro hr
      refine absurd ?_ hcond
      rw [Bool.and_eq_true]
      exact ⟨hm.mpr hr.1, hr.2⟩

/-- C1 witness: the spec's filter-correctness scenario.  The `@foo` video
card is visible; the unassigned `@bar` card is hidden; the `@foo` card
classified as shorts with the shorts toggle off is hidden. -/
theorem c1_witness :
    (filterCard racingState fooCard).display = "" ∧
    (filterCard racingState barCard).display = "none" ∧
    (filterCard racingState fooShortCard).display = "none" := by
  have htype : getContentType videoElem = ContentType.video := by
    simp [getContentType, queryInCard, anyLight, walkShadows, videoElem,
      plainData]
  have hshort : getContentType shortsLiveElem = ContentType.shorts := by
    simp [getContentType, queryInCard, anyLight, walkShadows, shortsLiveElem,
      plainData]
  refine ⟨?_, ?_, ?_⟩
  · exact (c1_filter_visibility racingState fooCard (by decide)).2.mpr
      ⟨Or.inr ⟨"https://www.youtube.com/@foo", rfl,
        ⟨"racing", by decide, by decide⟩⟩,
       by rw [show fooCard.tree = videoElem from rfl, htype]; decide⟩
  · have h := c1_filter_visibility racingState barCard (by decide)
    rcases h.1 with hd | hd
    · exfalso
      rcases (h.2.mp hd).1 with habs | ⟨url, hurl, t, hmem, hact⟩
      · exact absurd habs (by decide)
      · have hurl2 : url = "https://www.youtube.com/@bar" := by
          have : barCard.channelUrlAttr = some ("https://www.youtube.com/@bar") :=
            rfl
          rw [this] at hurl
          exact (Option.some_inj.mp hurl).symm
        rw [hurl2] at hmem
        have hempty : assignedTags racingState.channelTagMap
            ("https://www.youtube.com/@bar") = [] := by decide
        rw [hempty] at hmem
        exact absurd hmem (List.not_mem_nil t)
    · exact hd
  · have h := c1_filter_visibility racingState fooShortCard (by decide)
    rcases h.1 with hd | hd
    · exfalso
      have hct := (h.2.mp hd).2
      rw [show fooShortCard.tree = shortsLiveElem from rfl, hshort] at hct
      revert hct
      decide
    · exact hd

/-! ## Claim theorems: all-content-types-disabled behaviour (C6) -/

theorem matchesContentTypeFilter_of_disabled {f : ContentTypeFilterMap}
    (h : allContentDisabled f = true) (tree : Elem) :
    matchesContentTypeFilter f tree = false := by
  unfold allContentDisabled at h
  simp only [Bool.and_eq_true, Bool.not_eq_true'] at h
  obtain ⟨⟨⟨hs, hv⟩, hl⟩, hu⟩ := h
  unfold matchesContentTypeFilter
  cases getContentType tree <;> simp [mappedKey, lookupToggle, hs, hv, hl, hu]

/-- C6: on the subscriptions feed with an attachable notice container, when
all four content-type toggles are false the filter pass hides every card,
displays the page-level empty-state notice, and sets every continuation
element's display to `none`; when at least one toggle is true the notice is
absent or hidden and the continuation displays are restored to the empty
string. -/
theorem c6_all_types_disabled (st : FilterState) (pg : PageState)
    (hsub : pg.isSubscriptionsFeed = true)
    (hcont : pg.warningContainerExists = true) :
    (allContentDisabled st.contentTypeFilters = true →
      (∀ c ∈ (applyFilter st pg).cards, c.display = "none") ∧
      (applyFilter st pg).warning = some ("flex") ∧
      ∀ d ∈ (applyFilter st pg).continuations, d = "none") ∧
    (allContentDisabled st.contentTypeFilters = false →
      ((applyFilter st pg).warning = none ∨
        (applyFilter st pg).warning = some ("none")) ∧
      ∀ d ∈ (applyFilter st pg).continuations, d = "") := by
  have hwarn : (applyFilter st pg).warning =
      (if allContentDisabled st.contentTypeFilters then
        match pg.warning with
        | some _ => some ("flex")
        | none => if pg.warningContainerExists then some ("flex") else none
      else
        match pg.warning with
        | some _ => some ("none")
        | none => none) := by
    unfold applyFilter
    rw [hsub]
    rfl
  have hcards : (applyFilter st pg).cards = pg.cards.map (filterCard st) := by
    unfold applyFilter
    rw [hsub]
    rfl
  have hconts : (applyFilter st pg).continuations =
      pg.continuations.map
        (fun _ => if allContentDisabled st.contentTypeFilters then "none"
                  else "") := by
    unfold applyFilter
    rw [hsub]
    rfl
  constructor
  · intro hdis
    refine ⟨?_, ?_, ?_⟩
    · intro c hc
      rw [hcards] at hc
      rcases List.mem_map.mp hc with ⟨x, hx, rfl⟩
      unfold filterCard
      rw [matchesContentTypeFilter_of_disabled hdis, Bool.and_false]
      simp
    · rw [hwarn, if_pos hdis]
      rcases pg.warning with _ | w
      · rw [hcont]
        simp
      · rfl
    · intro d hd
      rw [hconts] at hd
      rcases List.mem_map.mp hd with ⟨x, hx, rfl⟩
      rw [if_pos hdis]
  · intro hdis
    have hdis2 : ¬ allContentDisabled st.contentTypeFilters = true := by
      rw [hdis]
      decide
    constructor
    · rw [hwarn, if_neg hdis2]
      rcases pg.warning with _ | w
      · exact Or.inl rfl
      · exact Or.inr rfl
    · intro d hd
      rw [hconts] at hd
      rcases List.mem_map.mp hd with ⟨x, hx, rfl⟩
      rw [if_neg hdis2]

/-- C6 witness: with every toggle off, the example page's notice is
displayed and both cards are hidden. -/
theorem c6_witness :
    (applyFilter allOffState examplePage).warning = some ("flex") ∧
    ∀ c ∈ (applyFilter allOffState examplePage).cards, c.display = "none" :=
  ⟨((c6_all_types_disabled allOffState examplePage rfl rfl).1 (by decide)).2.1,
   ((c6_all_types_disabled allOffState examplePage rfl rfl).1 (by decide)).1⟩

/-! ## Claim theorems: filter-change event handling (C4) -/

/-- C4 counterexample: an event that omits the content-type object entirely
does not reset the content-type filters to their all-true defaults — the
previous (here: videos-off) state is kept. -/
theorem c4_counterexample :
    (handleFilterChange
      { activeFilterTags := []
        channelTagMap := []
        contentTypeFilters :=
          { shorts := true, videos := false, live := true, upcoming := true } }
      (some { activeTags := some [], channelTags := some [],
              contentTypes := none })).contentTypeFilters.videos = false ∧
    DEFAULT_CONTENT_TYPES.videos = true := by
  decide

/-- C4 (amended): the handler replaces the two list fields, missing fields
becoming the empty list and empty map; a present (possibly partial)
content-type object is merged over the all-true defaults, so unspecified
types in a partial object come out enabled; but an event omitting the
content-type object entirely leaves the content-type filters unchanged from
their previous value (possibly stale) rather than resetting them to the
defaults. -/
theorem c4_amended_replacement (st : FilterState) (d : FilterChangeDetail) :
    (handleFilterChange st (some d)).activeFilterTags = d.activeTags.getD [] ∧
    (handleFilterChange st (some d)).channelTagMap = d.channelTags.getD [] ∧
    (∀ ct, d.contentTypes = some ct →
      (handleFilterChange st (some d)).contentTypeFilters =
        mergeContentTypes ct) ∧
    (d.contentTypes = none →
      (handleFilterChange st (some d)).contentTypeFilters =
        st.contentTypeFilters) := by
  refine ⟨rfl, rfl, ?_, ?_⟩
  · intro ct hct
    unfold handleFilterChange
    dsimp only
    rw [hct]
  · intro hct
    unfold handleFilterChange
    dsimp only
    rw [hct]

/-- C4 witness: an event with no content-type object keeps the previous
filters; an event with a partial object (only `shorts := false`) leaves the
unspecified types at their defaults. -/
theorem c4_witness :
    (handleFilterChange
      { activeFilterTags := []
        channelTagMap := []
        contentTypeFilters :=
          { shorts := true, videos := false, live := true, upcoming := true } }
      (some { activeTags := some [], channelTags := some [],
              contentTypes := none })).contentTypeFilters =
      { shorts := true, videos := false, live := true, upcoming := true } ∧
    (handleFilterChange
      { activeFilterTags := []
        channelTagMap := []
        contentTypeFilters :=
          { shorts := true, videos := false, live := true, upcoming := true } }
      (some { activeTags := some [], channelTags := some [],
              contentTypes := some { shorts := some false, videos := none,
                                     live := none,
                                     upcoming := none } })).contentTypeFilters =
      { shorts := false, videos := true, live := true, upcoming := true } := by
  constructor
  · exact (c4_amended_replacement _ _).2.2.2 rfl
  · rw [(c4_amended_replacement _ _).2.2.1
      { shorts := some false, videos := none, live := none, upcoming := none }
      rfl]
    decide

/-! ## Claim theorems: injection idempotence (C2) and stale controls (C5) -/

/-- C2: running the injection pass on a card with at most one injected
control preserves that invariant, a second run on the unchanged card is the
identity (no new element is created), and whenever a channel link resolves,
the run leaves exactly one control on the card.  The channel-URL annotation
is a single DOM attribute, modelled as the `Option`-valued field
`channelUrlAttr`, so a card carries at most one annotation by
construction. -/
theorem c2_injection_idempotent (m : List (String × List String))
    (link : Option Link) (c : CardState) (h : c.buttons.length ≤ 1) :
    addTagButtonToCard m link (addTagButtonToCard m link c) =
      addTagButtonToCard m link c ∧
    (addTagButtonToCard m link c).buttons.length ≤ 1 ∧
    ∀ l, link = some l → (addTagButtonToCard m link c).buttons.length = 1 := by
  rcases link with _ | l
  · refine ⟨rfl, h, ?_⟩
    intro l hl
    exact absurd hl (by simp)
  · rcases c with ⟨attr, mkd, btns⟩
    rcases btns with _ | ⟨b, bs⟩
    · cases mkd <;>
        refine ⟨?_, ?_, fun l2 hl2 => ?_⟩ <;>
          simp [addTagButtonToCard]
    · have hbs : bs = [] := by
        rcases bs with _ | ⟨x, xs⟩
        · rfl
        · exfalso
          dsimp only at h
          simp only [List.length_cons] at h
          omega
      subst hbs
      cases mkd <;>
        refine ⟨?_, ?_, fun l2 hl2 => ?_⟩ <;>
          simp [addTagButtonToCard]

/-- C2 witness: injecting twice into a pristine card with a resolved link
changes nothing the second time and leaves exactly one control. -/
theorem c2_witness :
    addTagButtonToCard [] (some ⟨"https://www.youtube.com/@foo", some ("Foo")⟩)
      (addTagButtonToCard []
        (some ⟨"https://www.youtube.com/@foo", some ("Foo")⟩)
        { channelUrlAttr := none, marked := false, buttons := [] }) =
      addTagButtonToCard []
        (some ⟨"https://www.youtube.com/@foo", some ("Foo")⟩)
        { channelUrlAttr := none, marked := false, buttons := [] } ∧
    (addTagButtonToCard []
      (some ⟨"https://www.youtube.com/@foo", some ("Foo")⟩)
      { channelUrlAttr := none, marked := false,
        buttons := [] }).buttons.length = 1 :=
  ⟨(c2_injection_idempotent []
      (some ⟨"https://www.youtube.com/@foo", some ("Foo")⟩)
      { channelUrlAttr := none, marked := false, buttons := [] }
      (by decide)).1,
   (c2_injection_idempotent []
      (some ⟨"https://www.youtube.com/@foo", some ("Foo")⟩)
      { channelUrlAttr := none, marked := false, buttons := [] }
      (by decide)).2.2 _ rfl⟩

/-- C5: evaluation of the injection pass at the failing input.  A card is
already annotated with the old channel URL and carries the old control;
the freshly resolved link differs.  Because `addTagButtonToCard` overwrites
the annotation before comparing it against the link, the guard
`currentUrl === link.href` always holds and the pass returns early: the
annotation now names the new URL but the stale control — label, data
attribute and click payload still bound to the old URL — is kept, not
replaced. -/
theorem c5_stale_control_kept :
    addTagButtonToCard []
      (some ⟨"https://www.youtube.com/@new", some ("New")⟩)
      { channelUrlAttr := some ("https://www.youtube.com/@old")
        marked := true
        buttons := [{ dataChannelUrl := "https://www.youtube.com/@old"
                      label := "Tag"
                      clickUrl := "https://www.youtube.com/@old"
                      clickName := "Old" }] } =
    { channelUrlAttr := some ("https://www.youtube.com/@new")
      marked := true
      buttons := [{ dataChannelUrl := "https://www.youtube.com/@old"
                    label := "Tag"
                    clickUrl := "https://www.youtube.com/@old"
                    clickName := "Old" }] } := by
  decide

end YoutubeLens
